import Mathlib

/-!
Verification of the spreadsheet-access layer of TTT-CRM.

The definitions below are a shallow embedding of the `GoogleSheets` class
(src/src/components/dashboard/DashboardStats.tsx, third document) and the
error routing of `AddLeadDialog.handleSubmit` (src/unnamed/part_000).
Network effects are represented by explicit environment records that carry
each endpoint's response, and thrown JS exceptions by `Except.error` with
the exact message string the source builds.
-/

namespace TTTCRM

/-! ## Column-address codec (`GoogleSheets.columnToIndex`) -/

/-- One iteration of the loop in `columnToIndex`:
`index = index * 26 + (col.charCodeAt(i) - 'A'.charCodeAt(0) + 1)`. -/
def colStep (acc : Int) (c : Char) : Int := acc * 26 + ((c.toNat : Int) - 64)

/-- The accumulated loop value over all letters of the column string. -/
def colVal (l : List Char) : Int := l.foldl colStep 0

/-- `GoogleSheets.columnToIndex`: base-26 value of the letters, minus one. -/
def columnToIndex (col : String) : Int := colVal col.toList - 1

/-- A character is an uppercase letter `'A'..'Z'` (codepoints 65..90). -/
def validColChar (c : Char) : Bool := 65 ≤ c.toNat && c.toNat ≤ 90

/-- A column address: a nonempty string of uppercase letters. -/
def validCol (s : String) : Bool := !s.toList.isEmpty && s.toList.all validColChar

/-- Lexicographic (alphabetical) order on equal-length letter lists, by
codepoint. -/
def lexLt : List Char → List Char → Bool
  | [], _ => false
  | _ :: _, [] => false
  | a :: as, b :: bs =>
    if a.toNat < b.toNat then true
    else if a.toNat = b.toNat then lexLt as bs
    else false

/-- Alphabetical-then-length order on column addresses:
`A < B < ... < Z < AA < AB < ...`. -/
def colAddrLt (s t : String) : Prop :=
  s.toList.length < t.toList.length ∨
    (s.toList.length = t.toList.length ∧ lexLt s.toList t.toList = true)

/-- Loop value of the all-`A` column string of a given length: the minimum
over valid columns of that length.  Proof scaffolding for monotonicity. -/
def minColVal : Nat → Int
  | 0 => 0
  | n + 1 => 26 * minColVal n + 1

/-! ## Sheet-id extraction (`GoogleSheets.extractSheetId`)

The source matches `url` against the regex `\/spreadsheets\/d\/([a-zA-Z0-9-_]+)`
and returns the first capture group, or `''` when there is no match. -/

/-- Character class `[a-zA-Z0-9-_]` of the sheet-id pattern. -/
def isIdChar (c : Char) : Bool := c.isAlpha || c.isDigit || c = '-' || c = '_'

/-- The literal part of the sheet-id pattern. -/
def sheetIdLit : List Char := "/spreadsheets/d/".toList

/-- Match of the sheet-id pattern anchored at the head of `l`: the literal
followed by a maximal nonempty run of id characters (the greedy `+`). -/
def matchAt (l : List Char) : Option (List Char) :=
  let cap := (l.drop sheetIdLit.length).takeWhile isIdChar
  if sheetIdLit.isPrefixOf l && !cap.isEmpty then some cap else none

/-- Leftmost match: positions are tried left to right, as the regex engine
does for an unanchored pattern. -/
def extractAux : List Char → Option (List Char)
  | [] => none
  | c :: cs =>
    match matchAt (c :: cs) with
    | some r => some r
    | none => extractAux cs

/-- `GoogleSheets.extractSheetId`: `match ? match[1] : ''`. -/
def extractSheetId (url : String) : String :=
  match extractAux url.toList with
  | some r => String.mk r
  | none => ""

/-! ## Record mapper -/

/-- JS `v || d` on an optional string: `undefined` and `""` are falsy. -/
def jsOr (v : Option String) (d : String) : String :=
  match v with
  | some s => if s = "" then d else s
  | none => d

/-- Property lookup on a record built from an entry list; a later entry for
the same key overwrites an earlier one, as JS object assignment does. -/
def jsGet : List (String × String) → String → Option String
  | [], _ => none
  | kc :: rest, key =>
    match jsGet rest key with
    | some v => some v
    | none => if kc.1 = key then some kc.2 else none

/-- Truthiness of `cm[key]` as used by the update filter: the key must be
present and bound to a nonempty column string. -/
def cmTruthy (cm : List (String × String)) (key : String) : Bool :=
  match jsGet cm key with
  | some c => c != ""
  | none => false

/-- Read `row[i] || ''`: a negative or out-of-range index yields `undefined`,
which `|| ''` turns into `''`, and a stored `''` stays `''`. -/
def getCell (row : List String) (i : Int) : String :=
  if i < 0 then "" else row.getD i.toNat ""

/-- Write `row[i] = v`.  A negative index would create an object property
invisible to the (nonnegative) reads modelled here, so it leaves the row
unchanged; an index past the end never occurs because the append row is
pre-sized to the maximal mapped column index. -/
def setAt (row : List String) (i : Int) (v : String) : List String :=
  if i < 0 then row else row.set i.toNat v

/-- `Math.max(...Object.values(cm).map(columnToIndex))`.  For an empty
mapping the source computes `-Infinity` and `new Array(-Infinity + 1)`
throws; `-1` stands in for that unreachable case (no claim uses an empty
mapping), and for any mapping containing a valid column the value agrees
with the true maximum. -/
def maxColIndex (cm : List (String × String)) : Int :=
  (cm.map fun kc => columnToIndex kc.2).foldr max (-1)

/-- One assignment of the append loop:
`if (key === 'tripId') row[idx] = lead.tripId || 'T' + Date.now();
 else if (lead[key] !== undefined) row[idx] = lead[key];` -/
def appendWrite (lead : String → Option String) (now : Nat)
    (row : List String) (kc : String × String) : List String :=
  if kc.1 = "tripId" then
    setAt row (columnToIndex kc.2) (jsOr (lead "tripId") ("T" ++ toString now))
  else
    match lead kc.1 with
    | some v => setAt row (columnToIndex kc.2) v
    | none => row

/-- The row `appendLead` builds before posting: a row of empty strings sized
to the maximal mapped column, then one write per mapping entry. -/
def recordToRow (cm : List (String × String)) (lead : String → Option String)
    (now : Nat) : List String :=
  cm.foldl (appendWrite lead now) (List.replicate (maxColIndex cm + 1).toNat "")

/-- The record the `fetchLeads` row mapper builds:
`lead[key] = row[columnToIndex(col)] || ''` for every mapping entry; fields
without a mapping entry stay undefined. -/
def rowToRecord (cm : List (String × String)) (row : List String) :
    String → Option String :=
  fun key => (jsGet cm key).map fun c => getCell row (columnToIndex c)

/-- The value `recordToRow` stores in the column mapped to `key` (`none`
means the cell keeps its `''` fill). -/
def writtenValue (lead : String → Option String) (now : Nat) (key : String) :
    Option String :=
  if key = "tripId" then some (jsOr (lead "tripId") ("T" ++ toString now))
  else lead key

/-- The value the read direction recovers for `key` after a round trip. -/
def readBackValue (lead : String → Option String) (now : Nat) (key : String) :
    String :=
  (writtenValue lead now key).getD ""

/-! ## Spreadsheet access client -/

/-- `this.worksheetNames[0] || 'MASTER DATA'`. -/
def activeWorksheet (names : List String) : String :=
  match names with
  | [] => "MASTER DATA"
  | n :: _ => if n = "" then "MASTER DATA" else n

/-- Environment of one `fetchLeads` call: HTTP success of the range read and
the `values` field of its JSON body (`none` when the range is empty). -/
structure FetchEnv where
  ok : Bool
  values : Option (List (List String))

/-- `GoogleSheets.fetchLeads`. -/
def fetchLeads (env : FetchEnv) (cm : List (String × String)) :
    Except String (List (String → Option String)) :=
  if env.ok then
    Except.ok ((env.values.getD []).map fun row => rowToRecord cm row)
  else Except.error "Failed to fetch leads."

/-- `GoogleSheets.getAccessToken`, with the token endpoint's HTTP outcome
supplied by the environment; `!this.serviceAccountJson` fails fast. -/
def getAccessToken (serviceAccountJson : String) (tokenOk : Bool) :
    Except String Unit :=
  if serviceAccountJson = "" then Except.error "Service Account JSON required."
  else if tokenOk then Except.ok ()
  else Except.error "Failed to get access token."

/-- Environment of one `appendLead` call. -/
structure AppendEnv where
  tokenOk : Bool
  ok : Bool
  bodyText : String

/-- `GoogleSheets.appendLead`; on success the posted row is returned so its
content can be stated (the source returns void). -/
def appendLead (env : AppendEnv) (serviceAccountJson : String)
    (cm : List (String × String)) (lead : String → Option String) (now : Nat) :
    Except String (List String) :=
  match getAccessToken serviceAccountJson env.tokenOk with
  | Except.error e => Except.error e
  | Except.ok _ =>
    let row := recordToRow cm lead now
    if env.ok then Except.ok row
    else Except.error ("Failed to append lead: " ++ env.bodyText)

/-- The provider endpoints `updateLead` can call, in call order. -/
inductive ApiCall
  | tokenExchange
  | readKeyColumn
  | batchUpdate
deriving DecidableEq, Repr

/-- Environment of one `updateLead` call. -/
structure UpdateEnv where
  tokenOk : Bool
  findOk : Bool
  findBody : String
  findValues : Option (List (List String))
  batchOk : Bool
  batchErrMsg : String

/-- `(dataFind.values && dataFind.values[0]) || []`. -/
def keyColVals (env : UpdateEnv) : List String :=
  match env.findValues with
  | some (c :: _) => c
  | _ => []

/-- The row lookup inside `updateLead`:
`colVals.findIndex(v => String(v) === String(tripId))`, rejected when `-1`,
otherwise plus the header offset of 2. -/
def findRowByKey (colVals : List String) (tripId : String) : Option Nat :=
  (colVals.findIdx? fun v => v == tripId).map (· + 2)

/-- Outcome of the `try` block of `updateLead` when nothing is thrown. -/
inductive UpdateOutcome
  | success (writes : List (String × String))
  | noop
  | batchRejected (msg : String)
deriving DecidableEq, Repr

/-- The `try` block of `updateLead`.  `Except.error` is a thrown exception;
the second component is the list of network calls issued, in order.  The
range string of the key-column read (built from `cm.tripId || 'A'`) only
parameterizes the environment's response and is not tracked.  Note the
`!res.ok` branch of the batch call `return`s normally after an alert — it
does not throw. -/
def updateLeadTry (env : UpdateEnv) (serviceAccountJson : String)
    (names : List String) (cm : List (String × String)) (tripId : String)
    (updates : List (String × Option String)) :
    Except String UpdateOutcome × List ApiCall :=
  if serviceAccountJson = "" then
    (Except.error "Service Account JSON required.", [])
  else if !env.tokenOk then
    (Except.error "Failed to get access token.", [ApiCall.tokenExchange])
  else if !env.findOk then
    (Except.error ("Failed to read Trip IDs: " ++ env.findBody),
      [ApiCall.tokenExchange, ApiCall.readKeyColumn])
  else
    match findRowByKey (keyColVals env) tripId with
    | none =>
      (Except.error ("Trip ID " ++ tripId ++ " not found."),
        [ApiCall.tokenExchange, ApiCall.readKeyColumn])
    | some rowNumber =>
      let ws := activeWorksheet names
      let data := (updates.filter fun kv => kv.2.isSome && cmTruthy cm kv.1).map
        fun kv => (ws ++ "!" ++ (jsGet cm kv.1).getD "" ++ toString rowNumber,
          kv.2.getD "")
      if data.isEmpty then
        (Except.ok UpdateOutcome.noop, [ApiCall.tokenExchange, ApiCall.readKeyColumn])
      else if env.batchOk then
        (Except.ok (UpdateOutcome.success data),
          [ApiCall.tokenExchange, ApiCall.readKeyColumn, ApiCall.batchUpdate])
      else
        (Except.ok (UpdateOutcome.batchRejected env.batchErrMsg),
          [ApiCall.tokenExchange, ApiCall.readKeyColumn, ApiCall.batchUpdate])

/-- What a caller of `updateLead` can observe; every constructor is a normal
return. -/
inductive UpdateResult
  | success (writes : List (String × String))
  | noop
  | batchRejected (msg : String)
  | caughtError (msg : String)
deriving DecidableEq, Repr

/-- `GoogleSheets.updateLead` as callers see it: the top-level `catch`
handler turns every thrown error into an alert plus a normal return. -/
def updateLead (env : UpdateEnv) (serviceAccountJson : String)
    (names : List String) (cm : List (String × String)) (tripId : String)
    (updates : List (String × Option String)) : UpdateResult × List ApiCall :=
  match updateLeadTry env serviceAccountJson names cm tripId updates with
  | (Except.ok (UpdateOutcome.success w), t) => (UpdateResult.success w, t)
  | (Except.ok UpdateOutcome.noop, t) => (UpdateResult.noop, t)
  | (Except.ok (UpdateOutcome.batchRejected m), t) => (UpdateResult.batchRejected m, t)
  | (Except.error e, t) => (UpdateResult.caughtError e, t)

/-! ## Error routing of `AddLeadDialog.handleSubmit` -/

/-- Does `needle` occur as a contiguous run inside the second list? -/
def listContains (needle : List Char) : List Char → Bool
  | [] => needle.isEmpty
  | c :: cs => needle.isPrefixOf (c :: cs) || listContains needle cs

/-- `msg.includes(needle)`. -/
def strIncludes (msg needle : String) : Bool := listContains needle.toList msg.toList

/-- The message `appendLead` throws on a rejected append:
`Failed to append lead: ` followed by the provider's response text. -/
def appendErrorMessage (bodyText : String) : String :=
  "Failed to append lead: " ++ bodyText

/-- Where the dialog's catch handler sends a failed append. -/
inductive SubmitRoute
  | protectionDialog
  | genericToast
deriving DecidableEq, Repr

/-- `if (error.message && error.message.includes('protected'))
      setShowProtectionError(true); else toast(...)`. -/
def handleSubmitRoute (msg : String) : SubmitRoute :=
  if msg != "" && strIncludes msg "protected" then SubmitRoute.protectionDialog
  else SubmitRoute.genericToast

/-! ## Constructor (`new GoogleSheets()`) -/

/-- The fields of `localSecrets` the constructor reads. -/
structure Secrets where
  spreadsheetUrl : String
  worksheetNames : List String
  columnMappings : List (String × String)
  serviceAccountJson : String
  googleApiKey : String

/-- The state a `GoogleSheets` instance holds after construction. -/
structure GoogleSheetsState where
  sheetId : String
  worksheetNames : List String
  columnMappings : List (String × String)
  serviceAccountJson : String
  apiKey : String

/-- The `GoogleSheets` constructor: the sheet id is extracted from the
configured URL with no validation and no error path. -/
def mkGoogleSheets (s : Secrets) : GoogleSheetsState :=
  { sheetId := extractSheetId s.spreadsheetUrl
    worksheetNames := s.worksheetNames
    columnMappings := s.columnMappings
    serviceAccountJson := s.serviceAccountJson
    apiKey := s.googleApiKey }

/-! ## Concrete fixtures used by the claim theorems -/

/-- The mapping of the spec's update example: trip id in column A, status in
column B. -/
def cmAB : List (String × String) := [("tripId", "A"), ("status", "B")]

/-- Key column holding `"T1"` in physical row 3 (index 1 of the range that
starts at row 2), with a successful batch endpoint. -/
def envFound : UpdateEnv :=
  { tokenOk := true, findOk := true, findBody := ""
    findValues := some [["T0", "T1"]], batchOk := true, batchErrMsg := "" }

/-- Key column `["T1","T2","T3"]` (rows 2..4). -/
def envThreeIds : UpdateEnv :=
  { tokenOk := true, findOk := true, findBody := ""
    findValues := some [["T1", "T2", "T3"]], batchOk := true, batchErrMsg := "" }

/-- A found key but a batch endpoint that rejects the write. -/
def envBatchRejected : UpdateEnv :=
  { tokenOk := true, findOk := true, findBody := ""
    findValues := some [["T1"]], batchOk := false, batchErrMsg := "quota exceeded" }

/-- A mapping sending two distinct fields to the same column. -/
def cmClash : List (String × String) := [("status", "A"), ("phone", "A")]

/-- A lead giving those two fields distinct values. -/
def leadClash : String → Option String :=
  fun key =>
    if key = "status" then some "x"
    else if key = "phone" then some "y"
    else none

/-- A lead with only a status, used to instantiate universally quantified
theorems. -/
def leadStatusOnly : String → Option String :=
  fun key => if key = "status" then some "Hot" else none

/-! ## Cell read/write lemmas -/

theorem getCell_setAt_ne (row : List String) (i j : Int) (v : String)
    (h : i ≠ j) : getCell (setAt row j v) i = getCell row i := by
  unfold getCell setAt
  by_cases hj : j < 0
  · simp [hj]
  · by_cases hi : i < 0
    · simp [hi]
    · have hne : j.toNat ≠ i.toNat := by omega
      simp [hj, hi, List.getD_eq_getElem?_getD, List.getElem?_set_ne hne]

theorem getCell_setAt_self (row : List String) (i : Int) (v : String)
    (h0 : 0 ≤ i) (hlen : i.toNat < row.length) :
    getCell (setAt row i v) i = v := by
  unfold getCell setAt
  have hneg : ¬i < 0 := by omega
  simp [hneg, List.getD_eq_getElem?_getD, List.getElem?_set_self hlen]

theorem length_setAt (row : List String) (i : Int) (v : String) :
    (setAt row i v).length = row.length := by
  unfold setAt
  split
  · rfl
  · simp

theorem getCell_replicate (n : Nat) (i : Int) :
    getCell (List.replicate n "") i = "" := by
  unfold getCell
  split
  · rfl
  · simp [List.getD_eq_getElem?_getD, List.getElem?_replicate]
    split <;> rfl

/-! ## Claim C1 -/

/-- Claim C1: with column mapping tripId→A, status→B, key column holding
"T1" in physical row 3, the update request with key "T1" and field change
status = "Hot Leads" issues a batch write containing exactly the one pair
("Sheet!B3", "Hot Leads"); the trip id, being the lookup-key argument of
`updateLead` rather than one of the updated fields, produces no write. -/
theorem c1_update_writes_single_cell :
    updateLead envFound "sa" ["Sheet"] cmAB "T1" [("status", some "Hot Leads")] =
      (UpdateResult.success [("Sheet!B3", "Hot Leads")],
        [ApiCall.tokenExchange, ApiCall.readKeyColumn, ApiCall.batchUpdate]) := by
  rfl

/-! ## Claim C5 -/

/-- Claim C5: the row lookup scans the key column top-down for the first cell
equal to the trip id under exact, case-sensitive string comparison and
returns match index + 2; on ["T1","T2","T3"] searching "T2" gives row 3,
searching "T9" finds nothing, and the update then aborts having issued no
cell writes and no batch call. -/
theorem c5_findRowByKey_behaviour :
    findRowByKey ["T1", "T2", "T3"] "T2" = some 3 ∧
    findRowByKey ["T1", "T2", "T3"] "T9" = none ∧
    findRowByKey ["T1", "T2", "T3"] "t2" = none ∧
    findRowByKey ["T2", "T2"] "T2" = some 2 ∧
    updateLead envThreeIds "sa" ["Sheet"] cmAB "T9" [("status", some "Hot Leads")] =
      (UpdateResult.caughtError "Trip ID T9 not found.",
        [ApiCall.tokenExchange, ApiCall.readKeyColumn]) :=
  ⟨rfl, rfl, rfl, rfl, rfl⟩

/-! ## Claim C9 -/

/-- Claim C9: a successful fetch whose response body has no `values` field
(an empty range) yields the empty list of leads, not an error. -/
theorem c9_empty_values_ok (env : FetchEnv) (cm : List (String × String))
    (hok : env.ok = true) (hv : env.values = none) :
    fetchLeads env cm = Except.ok [] := by
  simp [fetchLeads, hok, hv]

theorem c9_empty_values_ok_witness :
    fetchLeads { ok := true, values := none } [] = Except.ok [] :=
  c9_empty_values_ok _ _ rfl rfl

/-! ## Claim C2 (corrected) -/

/-- Claim C2 is false as stated: here the provider rejects the batch write
("quota exceeded"), yet `updateLead` returns normally — the source's
`if (!res.ok) { console.error(...); alert(...); return; }` swallows the
failure instead of propagating it, and its top-level catch would swallow
any thrown error as well.  Every `UpdateResult` constructor is a normal
return; nothing reaches the caller. -/
theorem c2_counterexample_batch_rejection_swallowed :
    updateLead envBatchRejected "sa" ["Sheet"] cmAB "T1"
        [("status", some "Hot Leads")] =
      (UpdateResult.batchRejected "quota exceeded",
        [ApiCall.tokenExchange, ApiCall.readKeyColumn, ApiCall.batchUpdate]) := by
  rfl

/-- Claim C2 amended: `fetchLeads` propagates a failed read (with a fixed
message), `appendLead` propagates a rejected append carrying the provider's
response text, but `updateLead` swallows every failure: whatever its try
block throws is caught and converted into an alert plus a normal return
(carrying the thrown message), so `updateLead` never propagates anything. -/
theorem c2_amended_propagation :
    (∀ (env : FetchEnv) (cm : List (String × String)), env.ok = false →
      fetchLeads env cm = Except.error "Failed to fetch leads.") ∧
    (∀ (env : AppendEnv) (sa : String) (cm : List (String × String))
        (lead : String → Option String) (now : Nat),
      sa ≠ "" → env.tokenOk = true → env.ok = false →
      appendLead env sa cm lead now =
        Except.error ("Failed to append lead: " ++ env.bodyText)) ∧
    (∀ (env : UpdateEnv) (sa : String) (names : List String)
        (cm : List (String × String)) (tripId : String)
        (updates : List (String × Option String)) (e : String) (t : List ApiCall),
      updateLeadTry env sa names cm tripId updates = (Except.error e, t) →
      updateLead env sa names cm tripId updates = (UpdateResult.caughtError e, t)) := by
  refine ⟨?_, ?_, ?_⟩
  · intro env cm h
    simp [fetchLeads, h]
  · intro env sa cm lead now hsa htok hok
    simp [appendLead, getAccessToken, hsa, htok, hok]
  · intro env sa names cm tripId updates e t h
    unfold updateLead
    rw [h]

theorem c2_amended_propagation_witness :
    fetchLeads { ok := false, values := none } [] =
        Except.error "Failed to fetch leads." ∧
    appendLead { tokenOk := true, ok := false, bodyText := "boom" } "sa" cmAB
        leadStatusOnly 0 =
      Except.error ("Failed to append lead: " ++ "boom") ∧
    updateLead { tokenOk := false, findOk := true, findBody := "",
                 findValues := none, batchOk := true, batchErrMsg := "" } "sa" [] cmAB
        "T1" [] =
      (UpdateResult.caughtError "Failed to get access token.",
        [ApiCall.tokenExchange]) :=
  ⟨c2_amended_propagation.1 _ _ rfl,
   c2_amended_propagation.2.1 _ _ _ _ _ (by decide) rfl rfl,
   c2_amended_propagation.2.2 _ _ _ _ _ _ _ _ rfl⟩

/-! ## Claim C3 (corrected) -/

/-- Claim C3 is false as stated: an update whose fields are all unmapped
does return as a no-op with zero cell writes, but it does not perform "no
network call" — the token exchange and the key-column read have already
been issued by the time the empty write set is discovered. -/
theorem c3_counterexample_noop_still_calls_network :
    updateLead envFound "sa" ["Sheet"] cmAB "T1" [("notes", some "hello")] =
      (UpdateResult.noop, [ApiCall.tokenExchange, ApiCall.readKeyColumn]) ∧
    ([ApiCall.tokenExchange, ApiCall.readKeyColumn] : List ApiCall) ≠ [] :=
  ⟨rfl, by decide⟩

/-- Claim C3 amended: when every entry of `updates` either has no defined
value or no (nonempty) column-mapping entry, and the request reaches the
write-building step (token acquired, key column read, row found), the
update produces zero cell writes, issues no batch-update call — though the
token exchange and key-column read have occurred — and returns as a no-op
rather than an error. -/
theorem c3_amended_noop (env : UpdateEnv) (sa : String) (names : List String)
    (cm : List (String × String)) (tripId : String)
    (updates : List (String × Option String)) (r : Nat)
    (hsa : sa ≠ "") (htok : env.tokenOk = true) (hfind : env.findOk = true)
    (hrow : findRowByKey (keyColVals env) tripId = some r)
    (hupd : ∀ kv ∈ updates, kv.2 = none ∨ cmTruthy cm kv.1 = false) :
    updateLead env sa names cm tripId updates =
      (UpdateResult.noop, [ApiCall.tokenExchange, ApiCall.readKeyColumn]) := by
  have hfilter : (updates.filter fun kv => kv.2.isSome && cmTruthy cm kv.1) = [] := by
    rw [List.filter_eq_nil_iff]
    intro kv hkv
    rcases hupd kv hkv with h | h
    · simp [h]
    · simp [h]
  unfold updateLead updateLeadTry
  simp [hsa, htok, hfind, hrow, hfilter]

/-! ## Codec arithmetic -/

theorem colVal_foldl (l : List Char) (a : Int) :
    l.foldl colStep a = a * 26 ^ l.length + colVal l := by
  induction l generalizing a with
  | nil => simp [colVal]
  | cons c cs ih =>
    show cs.foldl colStep (colStep a c) = _
    rw [ih (colStep a c)]
    have h2 : colVal (c :: cs) = colStep 0 c * 26 ^ cs.length + colVal cs := by
      show cs.foldl colStep (colStep 0 c) = _
      rw [ih (colStep 0 c)]
    rw [h2, List.length_cons]
    simp only [colStep]
    ring

theorem colVal_cons (c : Char) (cs : List Char) :
    colVal (c :: cs) = ((c.toNat : Int) - 64) * 26 ^ cs.length + colVal cs := by
  show cs.foldl colStep (colStep 0 c) = _
  rw [colVal_foldl]
  simp [colStep]

theorem minColVal_nonneg (n : Nat) : 0 ≤ minColVal n := by
  induction n with
  | zero => simp [minColVal]
  | succ n ih =>
    have h : minColVal (n + 1) = 26 * minColVal n + 1 := rfl
    rw [h]
    linarith

theorem minColVal_key (n : Nat) : 25 * minColVal n + 1 = 26 ^ n := by
  induction n with
  | zero => simp [minColVal]
  | succ n ih =>
    have h : minColVal (n + 1) = 26 * minColVal n + 1 := rfl
    rw [h, pow_succ]
    linarith

theorem minColVal_lt_succ (n : Nat) : minColVal n < minColVal (n + 1) := by
  have h : minColVal (n + 1) = 26 * minColVal n + 1 := rfl
  have h0 := minColVal_nonneg n
  rw [h]
  linarith

theorem minColVal_mono {n m : Nat} (h : n ≤ m) : minColVal n ≤ minColVal m := by
  induction m with
  | zero =>
    have : n = 0 := by omega
    rw [this]
  | succ m ih =>
    rcases Nat.lt_or_ge n (m + 1) with h1 | h2
    · have hn : n ≤ m := by omega
      exact le_trans (ih hn) (minColVal_lt_succ m).le
    · have : n = m + 1 := by omega
      rw [this]

theorem colVal_bounds (l : List Char) (h : l.all validColChar = true) :
    minColVal l.length ≤ colVal l ∧ colVal l ≤ 26 * minColVal l.length := by
  induction l with
  | nil => simp [colVal, minColVal]
  | cons c cs ih =>
    rw [List.all_cons, Bool.and_eq_true] at h
    obtain ⟨hlow, hhigh⟩ := ih h.2
    have hc : 65 ≤ c.toNat ∧ c.toNat ≤ 90 := by
      have := h.1
      simp [validColChar] at this
      exact this
    have hd1 : (1 : Int) ≤ (c.toNat : Int) - 64 := by omega
    have hd2 : ((c.toNat : Int) - 64) ≤ 26 := by omega
    have hP : (25 : Int) * minColVal cs.length + 1 = 26 ^ cs.length :=
      minColVal_key cs.length
    have hm0 : (0 : Int) ≤ minColVal cs.length := minColVal_nonneg cs.length
    have hPpos : (0 : Int) < 26 ^ cs.length := by rw [← hP]; linarith
    rw [colVal_cons, List.length_cons]
    have hms : minColVal (cs.length + 1) = 26 * minColVal cs.length + 1 := rfl
    rw [hms]
    constructor
    · have h1 : 1 * 26 ^ cs.length ≤ ((c.toNat : Int) - 64) * 26 ^ cs.length :=
        mul_le_mul_of_nonneg_right hd1 hPpos.le
      rw [one_mul] at h1
      linarith
    · have h2 : ((c.toNat : Int) - 64) * 26 ^ cs.length ≤ 26 * 26 ^ cs.length :=
        mul_le_mul_of_nonneg_right hd2 hPpos.le
      linarith

theorem lexLt_colVal : ∀ l m : List Char, l.all validColChar = true →
    m.all validColChar = true → l.length = m.length → lexLt l m = true →
    colVal l < colVal m := by
  intro l
  induction l with
  | nil =>
    intro m _ _ _ hlex
    cases m <;> simp [lexLt] at hlex
  | cons a as ih =>
    intro m hl hm hlen hlex
    cases m with
    | nil => simp at hlen
    | cons b bs =>
      rw [List.all_cons, Bool.and_eq_true] at hl hm
      have hlen' : as.length = bs.length := by simpa using hlen
      have hda : 65 ≤ a.toNat ∧ a.toNat ≤ 90 := by
        have := hl.1
        simp [validColChar] at this
        exact this
      have hdb : 65 ≤ b.toNat ∧ b.toNat ≤ 90 := by
        have := hm.1
        simp [validColChar] at this
        exact this
      have hub := (colVal_bounds as hl.2).2
      have hlb := (colVal_bounds bs hm.2).1
      have hP : (25 : Int) * minColVal bs.length + 1 = 26 ^ bs.length :=
        minColVal_key bs.length
      have hm0 : (0 : Int) ≤ minColVal bs.length := minColVal_nonneg bs.length
      have hPpos : (0 : Int) < 26 ^ bs.length := by rw [← hP]; linarith
      rw [colVal_cons, colVal_cons, hlen']
      by_cases h1 : a.toNat < b.toNat
      · have hd : ((a.toNat : Int) - 64) + 1 ≤ (b.toNat : Int) - 64 := by omega
        have hmul : (((a.toNat : Int) - 64) + 1) * 26 ^ bs.length ≤
            ((b.toNat : Int) - 64) * 26 ^ bs.length :=
          mul_le_mul_of_nonneg_right hd hPpos.le
        rw [add_mul, one_mul] at hmul
        rw [hlen'] at hub
        linarith
      · by_cases h2 : a.toNat = b.toNat
        · have hlex' : lexLt as bs = true := by
            simpa [lexLt, h1, h2] using hlex
          have hih := ih bs hl.2 hm.2 hlen' hlex'
          have hd : ((a.toNat : Int) - 64) = (b.toNat : Int) - 64 := by omega
          rw [hd]
          linarith
        · simp [lexLt, h1, h2] at hlex

theorem length_lt_colVal (l m : List Char) (hl : l.all validColChar = true)
    (hm : m.all validColChar = true) (h : l.length < m.length) :
    colVal l < colVal m := by
  have hu := (colVal_bounds l hl).2
  have hv := (colVal_bounds m hm).1
  have h1 : minColVal (l.length + 1) ≤ minColVal m.length := minColVal_mono h
  have h2 : minColVal (l.length + 1) = 26 * minColVal l.length + 1 := rfl
  linarith

/-! ## Row-codec lemmas -/

theorem columnToIndex_nonneg (c : String) (h : validCol c = true) :
    0 ≤ columnToIndex c := by
  rw [validCol, Bool.and_eq_true] at h
  unfold columnToIndex
  have hb := (colVal_bounds c.toList h.2).1
  have hlen : 1 ≤ c.toList.length := by
    have h1 := h.1
    have hne : c.toList ≠ [] := by simpa using h1
    exact List.length_pos.mpr hne
  have hmono : minColVal 1 ≤ minColVal c.toList.length := minColVal_mono hlen
  have h1 : minColVal 1 = 1 := rfl
  linarith

theorem le_foldr_max (l : List Int) (a x : Int) (h : x ∈ l) :
    x ≤ l.foldr max a := by
  induction l with
  | nil => cases h
  | cons y ys ih =>
    rcases List.mem_cons.mp h with h1 | h2
    · rw [h1, List.foldr_cons]
      exact le_max_left _ _
    · exact le_trans (ih h2) (le_max_right _ _)

theorem mem_le_maxColIndex (cm : List (String × String)) (kc : String × String)
    (h : kc ∈ cm) : columnToIndex kc.2 ≤ maxColIndex cm :=
  le_foldr_max _ _ _ (List.mem_map_of_mem _ h)

theorem jsGet_eq_none (cm : List (String × String)) (key : String)
    (h : key ∉ cm.map Prod.fst) : jsGet cm key = none := by
  induction cm with
  | nil => rfl
  | cons kc rest ih =>
    rw [List.map_cons, List.mem_cons] at h
    push_neg at h
    have hne : kc.1 ≠ key := fun hh => h.1 hh.symm
    simp [jsGet, ih h.2, hne]

theorem jsGet_of_mem (cm : List (String × String)) (key col : String)
    (hnd : (cm.map Prod.fst).Nodup) (h : (key, col) ∈ cm) :
    jsGet cm key = some col := by
  induction cm with
  | nil => cases h
  | cons kc rest ih =>
    rw [List.map_cons, List.nodup_cons] at hnd
    rcases List.mem_cons.mp h with h1 | h2
    · have hk : kc.1 = key := by rw [← h1]
      have hc : kc.2 = col := by rw [← h1]
      have hnone : jsGet rest key = none := by
        apply jsGet_eq_none
        rw [← hk]
        exact hnd.1
      simp [jsGet, hnone, hk, hc]
    · simp [jsGet, ih hnd.2 h2]

theorem length_appendWrite (lead : String → Option String) (now : Nat)
    (row : List String) (kc : String × String) :
    (appendWrite lead now row kc).length = row.length := by
  by_cases ht : kc.1 = "tripId"
  · simp [appendWrite, ht, length_setAt]
  · cases hl : lead kc.1 <;> simp [appendWrite, ht, hl, length_setAt]

theorem getCell_appendWrite_ne (lead : String → Option String) (now : Nat)
    (row : List String) (kc : String × String) (i : Int)
    (h : i ≠ columnToIndex kc.2) :
    getCell (appendWrite lead now row kc) i = getCell row i := by
  by_cases ht : kc.1 = "tripId"
  · rw [appendWrite, if_pos ht]
    exact getCell_setAt_ne _ _ _ _ h
  · rw [appendWrite, if_neg ht]
    cases hl : lead kc.1
    · rfl
    · exact getCell_setAt_ne _ _ _ _ h

theorem foldl_appendWrite_getCell_ne (lead : String → Option String) (now : Nat)
    (cm : List (String × String)) (i : Int)
    (h : ∀ kc ∈ cm, columnToIndex kc.2 ≠ i) :
    ∀ row : List String,
      getCell (cm.foldl (appendWrite lead now) row) i = getCell row i := by
  induction cm with
  | nil => intro row; rfl
  | cons kc rest ih =>
    intro row
    rw [List.foldl_cons]
    rw [ih (fun kc2 hk => h kc2 (List.mem_cons_of_mem _ hk))]
    exact getCell_appendWrite_ne lead now row kc i
      fun hh => h kc (List.mem_cons_self _ _) hh.symm

theorem length_foldl_appendWrite (lead : String → Option String) (now : Nat)
    (cm : List (String × String)) :
    ∀ row : List String,
      (cm.foldl (appendWrite lead now) row).length = row.length := by
  induction cm with
  | nil => intro row; rfl
  | cons kc rest ih =>
    intro row
    rw [List.foldl_cons, ih, length_appendWrite]

theorem foldl_appendWrite_getCell (lead : String → Option String) (now : Nat)
    (key col : String) :
    ∀ (cm : List (String × String)) (row : List String),
      (key, col) ∈ cm →
      (cm.map Prod.fst).Nodup →
      (∀ kc1 ∈ cm, ∀ kc2 ∈ cm,
        columnToIndex kc1.2 = columnToIndex kc2.2 → kc1.1 = kc2.1) →
      (∀ kc ∈ cm, 0 ≤ columnToIndex kc.2 ∧
        (columnToIndex kc.2).toNat < row.length) →
      getCell row (columnToIndex col) = "" →
      getCell (cm.foldl (appendWrite lead now) row) (columnToIndex col) =
        readBackValue lead now key := by
  intro cm
  induction cm with
  | nil => intro row h; cases h
  | cons kc rest ih =>
    intro row hmem hnd hinj hlen hempty
    rw [List.map_cons, List.nodup_cons] at hnd
    rw [List.foldl_cons]
    rcases List.mem_cons.mp hmem with h1 | h2
    · have hk : kc.1 = key := by rw [← h1]
      have hc : kc.2 = col := by rw [← h1]
      have hskip : ∀ kc2 ∈ rest, columnToIndex kc2.2 ≠ columnToIndex col := by
        intro kc2 hk2 heq
        have hsame : kc2.1 = kc.1 :=
          hinj kc2 (List.mem_cons_of_mem _ hk2) kc (List.mem_cons_self _ _)
            (by rw [heq, hc])
        apply hnd.1
        exact hsame ▸ List.mem_map_of_mem Prod.fst hk2
      rw [foldl_appendWrite_getCell_ne lead now rest _ hskip]
      obtain ⟨hge, hlt⟩ := hlen kc (List.mem_cons_self _ _)
      rw [hc] at hge hlt
      by_cases ht : key = "tripId"
      · have hcond : kc.1 = "tripId" := by rw [hk, ht]
        rw [appendWrite, if_pos hcond, hc,
          getCell_setAt_self row _ _ hge hlt]
        simp [readBackValue, writtenValue, ht]
      · have hcond : ¬kc.1 = "tripId" := by rw [hk]; exact ht
        rw [appendWrite, if_neg hcond, hk]
        cases hl : lead key with
        | some v =>
          rw [hc, getCell_setAt_self row _ _ hge hlt]
          simp [readBackValue, writtenValue, ht, hl]
        | none =>
          rw [hempty]
          simp [readBackValue, writtenValue, ht, hl]
    · have hkey : kc.1 ≠ key := by
        intro hh
        apply hnd.1
        rw [hh]
        exact List.mem_map_of_mem Prod.fst h2
      have hcol : columnToIndex kc.2 ≠ columnToIndex col := by
        intro heq
        exact hkey (hinj kc (List.mem_cons_self _ _) (key, col)
          (List.mem_cons_of_mem _ h2) heq)
      apply ih (appendWrite lead now row kc) h2 hnd.2
      · intro kc1 hk1 kc2 hk2
        exact hinj kc1 (List.mem_cons_of_mem _ hk1) kc2 (List.mem_cons_of_mem _ hk2)
      · intro kc2 hk2
        rw [length_appendWrite]
        exact hlen kc2 (List.mem_cons_of_mem _ hk2)
      · rw [getCell_appendWrite_ne lead now row kc _ hcol.symm]
        exact hempty

theorem colIndex_bounds_of_mem (cm : List (String × String))
    (kc : String × String) (hmem : kc ∈ cm) (hval : validCol kc.2 = true) :
    0 ≤ columnToIndex kc.2 ∧
      (columnToIndex kc.2).toNat < (maxColIndex cm + 1).toNat := by
  have h0 := columnToIndex_nonneg kc.2 hval
  have h1 := mem_le_maxColIndex cm kc hmem
  exact ⟨h0, by omega⟩

theorem recordToRow_getCell (cm : List (String × String))
    (lead : String → Option String) (now : Nat) (key col : String)
    (hnd : (cm.map Prod.fst).Nodup)
    (hval : ∀ kc ∈ cm, validCol kc.2 = true)
    (hinj : ∀ kc1 ∈ cm, ∀ kc2 ∈ cm,
      columnToIndex kc1.2 = columnToIndex kc2.2 → kc1.1 = kc2.1)
    (hmem : (key, col) ∈ cm) :
    getCell (recordToRow cm lead now) (columnToIndex col) =
      readBackValue lead now key := by
  unfold recordToRow
  apply foldl_appendWrite_getCell lead now key col cm _ hmem hnd hinj
  · intro kc hk
    rw [List.length_replicate]
    exact colIndex_bounds_of_mem cm kc hk (hval kc hk)
  · exact getCell_replicate _ _

/-! ## Claim C7 -/

/-- Claim C7: `columnToIndex` reads the column string as a base-26 numeral
with digits 'A'..'Z' worth 1..26 and subtracts 1 — so "A"→0, "Z"→25,
"AA"→26, "AZ"→51 — and it is strictly increasing over valid column
addresses in alphabetical-then-length order (A < B < ... < Z < AA < ...). -/
theorem c7_columnToIndex_codec :
    (columnToIndex "A" = 0 ∧ columnToIndex "Z" = 25 ∧
      columnToIndex "AA" = 26 ∧ columnToIndex "AZ" = 51) ∧
    ∀ s t : String, validCol s = true → validCol t = true → colAddrLt s t →
      columnToIndex s < columnToIndex t := by
  constructor
  · exact ⟨by decide, by decide, by decide, by decide⟩
  · intro s t hs ht hlt
    rw [validCol, Bool.and_eq_true] at hs ht
    unfold columnToIndex
    have key : colVal s.toList < colVal t.toList := by
      rcases hlt with h | ⟨hlen, hlex⟩
      · exact length_lt_colVal _ _ hs.2 ht.2 h
      · exact lexLt_colVal _ _ hs.2 ht.2 hlen hlex
    linarith

theorem c7_columnToIndex_codec_witness :
    columnToIndex "Z" < columnToIndex "AA" :=
  c7_columnToIndex_codec.2 "Z" "AA" (by decide) (by decide) (Or.inl (by decide))

/-! ## Claim C4 (corrected) -/

/-- Claim C4 is false as stated ("for every lead record and every column
mapping"): when a mapping sends two distinct fields to the same column, the
later field's append write overwrites the earlier one's cell, and reading
the row back returns the later value for both fields.  Here status and
phone both map to column A; the lead has status "x" and phone "y", and the
round trip returns "y" for status. -/
theorem c4_counterexample_duplicate_column :
    rowToRecord cmClash (recordToRow cmClash leadClash 0) "status" = some "y" ∧
    leadClash "status" = some "x" ∧ ("y" : String) ≠ "x" :=
  ⟨rfl, rfl, by decide⟩

/-- Claim C4 amended: for every lead record and every column mapping whose
columns are valid addresses and which assigns distinct cells to distinct
fields, reading back the appended row reproduces every mapped field
exactly: the value written for the field (its own value if defined — with
the trip identifier synthesized if absent or empty — and the empty-string
fill otherwise). -/
theorem c4_amended_round_trip (cm : List (String × String))
    (lead : String → Option String) (now : Nat) (key col : String)
    (hnd : (cm.map Prod.fst).Nodup)
    (hval : ∀ kc ∈ cm, validCol kc.2 = true)
    (hinj : ∀ kc1 ∈ cm, ∀ kc2 ∈ cm,
      columnToIndex kc1.2 = columnToIndex kc2.2 → kc1.1 = kc2.1)
    (hmem : (key, col) ∈ cm) :
    rowToRecord cm (recordToRow cm lead now) key =
      some (readBackValue lead now key) := by
  unfold rowToRecord
  rw [jsGet_of_mem cm key col hnd hmem]
  rw [Option.map_some']
  rw [recordToRow_getCell cm lead now key col hnd hval hinj hmem]

theorem c4_amended_round_trip_witness :
    rowToRecord cmAB (recordToRow cmAB leadStatusOnly 7) "status" = some "Hot" :=
  c4_amended_round_trip cmAB leadStatusOnly 7 "status" "B"
    (by decide) (by decide) (by decide) (by decide)

/-! ## Claim C6 -/

/-- Claim C6: in the row built by the append path, the cell of the
trip-identifier column holds "T" followed by the decimal digits of the
current millisecond timestamp — a nonempty string — whenever the lead's
trip identifier is absent or empty, and holds the supplied identifier
verbatim when it is nonempty.  (As everywhere, the mapping is assumed to
give fields distinct valid cells.) -/
theorem c6_tripId_cell (cm : List (String × String))
    (lead : String → Option String) (now : Nat) (col : String)
    (hnd : (cm.map Prod.fst).Nodup)
    (hval : ∀ kc ∈ cm, validCol kc.2 = true)
    (hinj : ∀ kc1 ∈ cm, ∀ kc2 ∈ cm,
      columnToIndex kc1.2 = columnToIndex kc2.2 → kc1.1 = kc2.1)
    (hmem : ("tripId", col) ∈ cm) :
    ((lead "tripId" = none ∨ lead "tripId" = some "") →
      getCell (recordToRow cm lead now) (columnToIndex col) =
          "T" ++ toString now ∧
      getCell (recordToRow cm lead now) (columnToIndex col) ≠ "") ∧
    (∀ v, lead "tripId" = some v → v ≠ "" →
      getCell (recordToRow cm lead now) (columnToIndex col) = v) := by
  have hcell : getCell (recordToRow cm lead now) (columnToIndex col) =
      readBackValue lead now "tripId" :=
    recordToRow_getCell cm lead now "tripId" col hnd hval hinj hmem
  constructor
  · intro habs
    have hsynth : readBackValue lead now "tripId" = "T" ++ toString now := by
      rcases habs with h | h <;> simp [readBackValue, writtenValue, jsOr, h]
    have hne : ("T" ++ toString now) ≠ "" := by
      intro hcontra
      have hlen := congrArg String.length hcontra
      rw [String.length_append] at hlen
      have h1 : "T".length = 1 := rfl
      rw [h1] at hlen
      simp at hlen
    rw [hcell, hsynth]
    exact ⟨rfl, hne⟩
  · intro v hv hvne
    rw [hcell]
    simp [readBackValue, writtenValue, jsOr, hv, hvne]

theorem c6_tripId_cell_witness :
    getCell (recordToRow cmAB leadStatusOnly 12345) (columnToIndex "A") =
      "T" ++ toString 12345 :=
  ((c6_tripId_cell cmAB leadStatusOnly 12345 "A"
    (by decide) (by decide) (by decide) (by decide)).1 (Or.inl rfl)).1

/-! ## Claim C8 -/

theorem listContains_append_left (needle pre l : List Char)
    (h : listContains needle l = true) :
    listContains needle (pre ++ l) = true := by
  induction pre with
  | nil => simpa using h
  | cons c cs ih =>
    rw [List.cons_append]
    simp [listContains, ih]

theorem toList_string_append (a b : String) :
    (a ++ b).toList = a.toList ++ b.toList := rfl

/-- Claim C8: an append failure whose provider error text contains the
substring "protected" is routed by the dialog's catch handler to the
protection-remediation dialog; an append failure whose (full) message does
not contain "protected" is presented as a generic toast instead. -/
theorem c8_protected_classification :
    (∀ bodyText : String, strIncludes bodyText "protected" = true →
      handleSubmitRoute (appendErrorMessage bodyText) =
        SubmitRoute.protectionDialog) ∧
    (∀ bodyText : String,
      strIncludes (appendErrorMessage bodyText) "protected" = false →
      handleSubmitRoute (appendErrorMessage bodyText) =
        SubmitRoute.genericToast) := by
  constructor
  · intro body h
    have hinc : strIncludes (appendErrorMessage body) "protected" = true := by
      unfold strIncludes appendErrorMessage
      rw [toList_string_append]
      exact listContains_append_left _ _ _ h
    have hne : appendErrorMessage body ≠ "" := by
      intro hcontra
      have hlen := congrArg String.length hcontra
      rw [appendErrorMessage, String.length_append] at hlen
      have h1 : "Failed to append lead: ".length = 23 := rfl
      rw [h1] at hlen
      simp at hlen
    unfold handleSubmitRoute
    rw [if_pos]
    rw [Bool.and_eq_true]
    exact ⟨bne_iff_ne.mpr hne, hinc⟩
  · intro body h
    unfold handleSubmitRoute
    rw [if_neg]
    intro hcond
    rw [Bool.and_eq_true] at hcond
    rw [hcond.2] at h
    exact Bool.true_eq_false.mp h

theorem c8_protected_classification_witness :
    handleSubmitRoute (appendErrorMessage "range is protected") =
        SubmitRoute.protectionDialog ∧
    handleSubmitRoute (appendErrorMessage "server error") =
        SubmitRoute.genericToast :=
  ⟨c8_protected_classification.1 _ (by decide),
   c8_protected_classification.2 _ (by decide)⟩

/-! ## Claim C10 -/

theorem extractAux_eq_none (l : List Char)
    (h : ∀ t ∈ l.tails, matchAt t = none) : extractAux l = none := by
  induction l with
  | nil => rfl
  | cons c cs ih =>
    have h1 : matchAt (c :: cs) = none := by
      apply h
      rw [List.tails_cons]
      exact List.mem_cons_self _ _
    have h2 : extractAux cs = none := by
      apply ih
      intro t ht
      apply h
      rw [List.tails_cons]
      exact List.mem_cons_of_mem _ ht
    simp [extractAux, h1, h2]

/-- Claim C10: for every URL with no segment matching the pattern
`/spreadsheets/d/{id}`, `extractSheetId` returns the empty string rather
than failing, so the constructed client simply holds an empty sheet id —
no configuration error is reported (the constructor has no failure
path). -/
theorem c10_no_match_yields_empty_id (s : Secrets)
    (h : ∀ t ∈ s.spreadsheetUrl.toList.tails, matchAt t = none) :
    extractSheetId s.spreadsheetUrl = "" ∧ (mkGoogleSheets s).sheetId = "" := by
  have he : extractSheetId s.spreadsheetUrl = "" := by
    unfold extractSheetId
    rw [extractAux_eq_none _ h]
  exact ⟨he, he⟩

theorem c10_no_match_yields_empty_id_witness :
    (mkGoogleSheets { spreadsheetUrl := "https://example.com/home",
                      worksheetNames := [], columnMappings := [],
                      serviceAccountJson := "", googleApiKey := "" }).sheetId
      = "" :=
  (c10_no_match_yields_empty_id _ (by decide)).2

theorem c3_amended_noop_witness :
    updateLead envFound "sa" ["Sheet"] cmAB "T1" [("status", none)] =
      (UpdateResult.noop, [ApiCall.tokenExchange, ApiCall.readKeyColumn]) :=
  c3_amended_noop _ _ _ _ _ _ 3 (by decide) rfl rfl rfl (by decide)

end TTTCRM
